import Mathlib

/-!
Verification development for the Excel-Comparator repository
(`excel_comparator.py`).  The core logic — composite-key construction,
dictionary-based record indexing, per-column null-aware change detection,
sheet-level structural statistics and the aggregate summary — is embedded
shallowly below.  Cell values are modelled by `Value`: `null` stands for a
pandas missing value (`pd.isna` true) and `scalar s` stands for any non-null
cell whose canonical string form (`str(value)`) is `s`.  A record (one sheet
row) is an association list from column name to value; a sheet is a
`DataFrame` carrying its column list and its ordered rows.
-/

/-- A cell value: either pandas-null, or a non-null scalar identified by its
canonical string form `str(value)`. -/
inductive Value where
  | null
  | scalar (s : String)
deriving DecidableEq, Repr

/-- The null test `pd.isna(value)`. -/
def Value.isna : Value → Bool
  | .null => true
  | .scalar _ => false

/-- The canonical string form `str(value)`.  (`str(np.nan)` is `"nan"`; the code only applies `str`
after an `isna` guard, so the `null` case is never relevant.) -/
def Value.strForm : Value → String
  | .null => "nan"
  | .scalar s => s

/-- One record: a mapping from column name to cell value, as an association
list.  A column absent from the list is absent from the record's schema
(`col in row` is false), which is distinct from being present with `null`. -/
abbrev Row := List (String × Value)

/-- One sheet of one file: its column list and its ordered rows. -/
structure DataFrame where
  columns : List String
  rows : List Row

/-- The module constant UNIQUE_IDENTIFIERS: Channel Name, Program Date, Clip Start Time. -/
def UNIQUE_IDENTIFIERS : List String :=
  ["Channel Name", "Program Date", "Clip Start Time"]

/-- The per-column normalisation shared by `create_composite_key` and
`extract_identifier_values`: a column absent from the record maps to
`'MISSING'`, a null value to `'NULL'`, and any other value to
`str(value).strip()`. -/
def normalize_identifier_value (row : Row) (col : String) : String :=
  match List.lookup col row with
  | some Value.null => "NULL"
  | some (Value.scalar s) => s.trim
  | none => "MISSING"

/-- The key builder `create_composite_key(row, identifier_columns)`: join the normalised
identifier values with `'|'`. -/
def create_composite_key (row : Row) (identifier_columns : List String) : String :=
  String.intercalate "|" (identifier_columns.map (normalize_identifier_value row))

/-- The helper `extract_identifier_values(row, identifier_columns)`. -/
def extract_identifier_values (row : Row) (identifier_columns : List String) :
    List (String × String) :=
  identifier_columns.map (fun col => (col, normalize_identifier_value row col))

/-- Python-dict insertion: if the key is present, update its value in place;
otherwise append the binding at the end. -/
def insertKey (d : List (String × Nat)) (k : String) (i : Nat) : List (String × Nat) :=
  if d.any (fun p => p.1 == k) then
    d.map (fun p => if p.1 == k then (p.1, i) else p)
  else
    d ++ [(k, i)]

/-- The dictionary comprehension mapping each row's COMPOSITE_KEY to its index, iterating
from row index `i` upward and starting from dictionary `d`. -/
def buildDictGo (ids : List String) : Nat → List Row → List (String × Nat) → List (String × Nat)
  | _, [], d => d
  | i, row :: rest, d => buildDictGo ids (i + 1) rest (insertKey d (create_composite_key row ids) i)

/-- The record index of one dataframe: composite key → row position, with
last-write-wins on key collision. -/
def buildDict (rows : List Row) (ids : List String) : List (String × Nat) :=
  buildDictGo ids 0 rows []

/-- The per-column change test of `analyze_differences`: both null → equal
(skip); exactly one null, or differing canonical string forms → changed. -/
def values_differ (val1 val2 : Value) : Bool :=
  if val1.isna && val2.isna then false
  else if val1.isna || val2.isna || (val1.strForm != val2.strForm) then true
  else false

/-- The `modified_cols` dictionary computed for a key present in both files:
every common column whose two values differ, with both raw values. -/
def modified_columns_for (row1 row2 : Row) (common_columns : List String) :
    List (String × Value × Value) :=
  common_columns.filterMap (fun col =>
    let val1 := (List.lookup col row1).getD Value.null
    let val2 := (List.lookup col row2).getD Value.null
    if values_differ val1 val2 then some (col, val1, val2) else none)

/-- An entry of `differences['modified_rows']`. -/
structure MatchedEntry where
  composite_key : String
  file1_index : Nat
  file2_index : Nat
  modified_columns : List (String × Value × Value)
  identifier_values : List (String × String)
deriving DecidableEq, Repr

/-- An entry of `differences['identical_rows']`. -/
structure IdenticalEntry where
  composite_key : String
  file1_index : Nat
  file2_index : Nat
  identifier_values : List (String × String)
deriving DecidableEq, Repr

/-- An entry of `differences['rows_only_in_file1']` (resp. `file2`). -/
structure OnlyEntry where
  composite_key : String
  row_index : Nat
  data : Row
  identifier_values : List (String × String)
deriving DecidableEq, Repr

/-- The column_differences field of the differences dictionary. -/
structure ColumnDifferences where
  file1_unique_columns : List String
  file2_unique_columns : List String
deriving DecidableEq, Repr

/-- The summary field of the differences dictionary. -/
structure Summary where
  total_rows_file1 : Nat
  total_rows_file2 : Nat
  rows_only_in_file1 : Nat
  rows_only_in_file2 : Nat
  identical_rows : Nat
  modified_rows : Nat
  common_columns : Nat
  file1_unique_columns : Nat
  file2_unique_columns : Nat
  available_identifiers : List String
  missing_identifiers : List String
deriving DecidableEq, Repr

/-- The `differences` dictionary returned by `analyze_differences`. -/
structure Differences where
  rows_only_in_file1 : List OnlyEntry
  rows_only_in_file2 : List OnlyEntry
  identical_rows : List IdenticalEntry
  modified_rows : List MatchedEntry
  column_differences : ColumnDifferences
  summary : Summary
deriving DecidableEq, Repr

/-- The identifiers of `UNIQUE_IDENTIFIERS` present in both dataframes'
column sets (`available_identifiers` in `analyze_differences`). -/
def available_identifiers (df1 df2 : DataFrame) : List String :=
  UNIQUE_IDENTIFIERS.filter (fun c => decide (c ∈ df1.columns ∧ c ∈ df2.columns))

/-- The common columns, list(set(df1.columns) & set(df2.columns)): the columns
present in both dataframes, without duplicates (a Python set has no
duplicates; its iteration order is arbitrary, so only membership matters). -/
def common_columns_of (df1 df2 : DataFrame) : List String :=
  (df1.columns.filter (fun c => decide (c ∈ df2.columns))).dedup

/-- The left-only columns, list(set(df1.columns) - set(df2.columns)). -/
def file1_unique_columns_of (df1 df2 : DataFrame) : List String :=
  (df1.columns.filter (fun c => decide (c ∉ df2.columns))).dedup

/-- The right-only columns, list(set(df2.columns) - set(df1.columns)). -/
def file2_unique_columns_of (df1 df2 : DataFrame) : List String :=
  (df2.columns.filter (fun c => decide (c ∉ df1.columns))).dedup

/-- The key union all_keys = set(df1_dict.keys()) | set(df2_dict.keys()): the union of
the two key sets (left keys first, then the right keys not already seen;
a Python set's iteration order is arbitrary, so only membership matters). -/
def reconcile_all_keys (d1 d2 : List (String × Nat)) : List String :=
  d1.map Prod.fst ++ (d2.map Prod.fst).filter (fun k => decide (k ∉ d1.map Prod.fst))

/-- The `identical_rows` appended by the reconciliation loop: keys found in
both dictionaries whose common columns all match. -/
def identical_entries (rows1 rows2 : List Row) (avail common : List String)
    (d1 d2 : List (String × Nat)) (ks : List String) : List IdenticalEntry :=
  ks.filterMap (fun k =>
    match List.lookup k d1, List.lookup k d2 with
    | some i1, some i2 =>
      let row1 := rows1.getD i1 []
      let row2 := rows2.getD i2 []
      if (modified_columns_for row1 row2 common).isEmpty then
        some { composite_key := k, file1_index := i1, file2_index := i2,
               identifier_values := extract_identifier_values row1 avail }
      else none
    | _, _ => none)

/-- The `modified_rows` appended by the reconciliation loop: keys found in
both dictionaries with at least one differing common column. -/
def modified_entries (rows1 rows2 : List Row) (avail common : List String)
    (d1 d2 : List (String × Nat)) (ks : List String) : List MatchedEntry :=
  ks.filterMap (fun k =>
    match List.lookup k d1, List.lookup k d2 with
    | some i1, some i2 =>
      let row1 := rows1.getD i1 []
      let row2 := rows2.getD i2 []
      let mods := modified_columns_for row1 row2 common
      if mods.isEmpty then none
      else
        some { composite_key := k, file1_index := i1, file2_index := i2,
               modified_columns := mods,
               identifier_values := extract_identifier_values row1 avail }
    | _, _ => none)

/-- The `rows_only_in_file1` appended by the reconciliation loop. -/
def only_file1_entries (rows1 : List Row) (avail : List String)
    (d1 d2 : List (String × Nat)) (ks : List String) : List OnlyEntry :=
  ks.filterMap (fun k =>
    match List.lookup k d1, List.lookup k d2 with
    | some i1, none =>
      some { composite_key := k, row_index := i1, data := rows1.getD i1 [],
             identifier_values := extract_identifier_values (rows1.getD i1 []) avail }
    | _, _ => none)

/-- The `rows_only_in_file2` appended by the reconciliation loop. -/
def only_file2_entries (rows2 : List Row) (avail : List String)
    (d1 d2 : List (String × Nat)) (ks : List String) : List OnlyEntry :=
  ks.filterMap (fun k =>
    match List.lookup k d1, List.lookup k d2 with
    | none, some i2 =>
      some { composite_key := k, row_index := i2, data := rows2.getD i2 [],
             identifier_values := extract_identifier_values (rows2.getD i2 []) avail }
    | _, _ => none)

/-- The body of `analyze_differences` after the available identifiers have
been determined: build both key dictionaries, take the union of the key
sets, and classify every key into exactly one of the four outcome lists.
`analyze_differences` itself instantiates `avail` with
`available_identifiers df1 df2`. -/
def analyze_with_identifiers (df1 df2 : DataFrame) (avail : List String) : Differences :=
  let d1 := buildDict df1.rows avail
  let d2 := buildDict df2.rows avail
  let common := common_columns_of df1 df2
  let all_keys := reconcile_all_keys d1 d2
  let identical := identical_entries df1.rows df2.rows avail common d1 d2 all_keys
  let modified := modified_entries df1.rows df2.rows avail common d1 d2 all_keys
  let only1 := only_file1_entries df1.rows avail d1 d2 all_keys
  let only2 := only_file2_entries df2.rows avail d1 d2 all_keys
  { rows_only_in_file1 := only1
    rows_only_in_file2 := only2
    identical_rows := identical
    modified_rows := modified
    column_differences :=
      { file1_unique_columns := file1_unique_columns_of df1 df2
        file2_unique_columns := file2_unique_columns_of df1 df2 }
    summary :=
      { total_rows_file1 := df1.rows.length
        total_rows_file2 := df2.rows.length
        rows_only_in_file1 := only1.length
        rows_only_in_file2 := only2.length
        identical_rows := identical.length
        modified_rows := modified.length
        common_columns := common.length
        file1_unique_columns := (file1_unique_columns_of df1 df2).length
        file2_unique_columns := (file2_unique_columns_of df1 df2).length
        available_identifiers := avail
        missing_identifiers := UNIQUE_IDENTIFIERS.filter (fun c => decide (c ∉ avail)) } }

/-- The reconciler `analyze_differences(df1, df2, ...)`: determine which configured
identifiers are present in both column sets, then reconcile with them. -/
def analyze_differences (df1 df2 : DataFrame) : Differences :=
  analyze_with_identifiers df1 df2 (available_identifiers df1 df2)

/-- The `stats` dictionary of `compare_excel_files` for one sheet. -/
structure SheetStats where
  file1_rows : Nat
  file1_columns : Nat
  file2_rows : Nat
  file2_columns : Nat
  common_columns : List String
  file1_unique_columns : List String
  file2_unique_columns : List String
deriving DecidableEq, Repr

/-- The structural statistics computed by `compare_excel_files` for one
common sheet. -/
def compare_sheet_statistics (df1 df2 : DataFrame) : SheetStats :=
  { file1_rows := df1.rows.length
    file1_columns := df1.columns.length
    file2_rows := df2.rows.length
    file2_columns := df2.columns.length
    common_columns := common_columns_of df1 df2
    file1_unique_columns := file1_unique_columns_of df1 df2
    file2_unique_columns := file2_unique_columns_of df1 df2 }

/-- The overall totals printed by `generate_summary_report`. -/
structure OverallStats where
  total_sheets : Nat
  sheets_with_differences : Nat
  total_modifications : Nat
  total_missing_rows_file1 : Nat
  total_missing_rows_file2 : Nat
  identical : Bool
deriving DecidableEq, Repr

/-- The aggregate reporter `generate_summary_report(comparison_results, ...)`: roll the per-sheet
summaries up into overall totals and the IDENTICAL / DIFFERENCES verdict. -/
def generate_summary_report (comparison_results : List (String × Differences)) : OverallStats :=
  let total_modifications := (comparison_results.map (fun p => p.2.summary.modified_rows)).sum
  let total_missing_rows_file1 :=
    (comparison_results.map (fun p => p.2.summary.rows_only_in_file1)).sum
  let total_missing_rows_file2 :=
    (comparison_results.map (fun p => p.2.summary.rows_only_in_file2)).sum
  { total_sheets := comparison_results.length
    sheets_with_differences := comparison_results.countP (fun p =>
      decide (0 < p.2.summary.modified_rows ∨ 0 < p.2.summary.rows_only_in_file1 ∨
        0 < p.2.summary.rows_only_in_file2))
    total_modifications := total_modifications
    total_missing_rows_file1 := total_missing_rows_file1
    total_missing_rows_file2 := total_missing_rows_file2
    identical := decide (total_modifications = 0 ∧ total_missing_rows_file1 = 0 ∧
      total_missing_rows_file2 = 0) }

/-- The index of the last row (counting positions from `i`) whose composite
key is `k`: the value the dictionary comprehension stores for `k`. -/
def lastKeyIdx (ids : List String) : Nat → List Row → String → Option Nat
  | _, [], _ => none
  | i, row :: rest, k =>
    match lastKeyIdx ids (i + 1) rest k with
    | some j => some j
    | none => if create_composite_key row ids = k then some i else none

/-- Does the reconciliation loop classify key `k` as identical?  (Present in
both dictionaries, no differing common column.) -/
def is_identical_key (rows1 rows2 : List Row) (common : List String)
    (d1 d2 : List (String × Nat)) (k : String) : Bool :=
  match List.lookup k d1, List.lookup k d2 with
  | some i1, some i2 =>
    (modified_columns_for (rows1.getD i1 []) (rows2.getD i2 []) common).isEmpty
  | _, _ => false

/-- Does the reconciliation loop classify key `k` as modified?  (Present in
both dictionaries, at least one differing common column.) -/
def is_modified_key (rows1 rows2 : List Row) (common : List String)
    (d1 d2 : List (String × Nat)) (k : String) : Bool :=
  match List.lookup k d1, List.lookup k d2 with
  | some i1, some i2 =>
    !(modified_columns_for (rows1.getD i1 []) (rows2.getD i2 []) common).isEmpty
  | _, _ => false

/-- Does the reconciliation loop classify key `k` as only-in-file-1? -/
def is_only_file1_key (d1 d2 : List (String × Nat)) (k : String) : Bool :=
  match List.lookup k d1, List.lookup k d2 with
  | some _, none => true
  | _, _ => false

/-- Does the reconciliation loop classify key `k` as only-in-file-2? -/
def is_only_file2_key (d1 d2 : List (String × Nat)) (k : String) : Bool :=
  match List.lookup k d1, List.lookup k d2 with
  | none, some _ => true
  | _, _ => false

/-- The null-aware change rule as the specification words it: a column is
changed when not both values are null, and either exactly one is null or the
canonical string forms differ. -/
def column_changed (v1 v2 : Value) : Prop :=
  ¬(v1 = Value.null ∧ v2 = Value.null) ∧
    (v1 = Value.null ∨ v2 = Value.null ∨ Value.strForm v1 ≠ Value.strForm v2)

instance column_changed_decidable (v1 v2 : Value) : Decidable (column_changed v1 v2) := by
  unfold column_changed
  exact inferInstance

/-- Left sheet used by the concrete witnesses: one record keyed by three null
identifiers, with `val = 5`. -/
def witnessDf1 : DataFrame :=
  { columns := ["Channel Name", "Program Date", "Clip Start Time", "val"]
    rows := [[("Channel Name", Value.null), ("Program Date", Value.null),
      ("Clip Start Time", Value.null), ("val", Value.scalar "5")]] }

/-- Right sheet used by the concrete witnesses: the matching record with
`val = 6`. -/
def witnessDf2 : DataFrame :=
  { columns := ["Channel Name", "Program Date", "Clip Start Time", "val"]
    rows := [[("Channel Name", Value.null), ("Program Date", Value.null),
      ("Clip Start Time", Value.null), ("val", Value.scalar "6")]] }

/-- Left sheet for the claim C10 witness: no identifier columns at all. -/
def noIdsDf1 : DataFrame := { columns := ["a"], rows := [[("a", Value.scalar "x")]] }

/-- Right sheet for the claim C10 witness: no identifier columns at all. -/
def noIdsDf2 : DataFrame := { columns := ["a"], rows := [[("a", Value.scalar "y")]] }

/-- The left record of the spec's scenario 9: `Program Date` absent from the
schema, the other two identifiers present. -/
def c3Row1 (a c : String) : Row :=
  [("Channel Name", Value.scalar a), ("Clip Start Time", Value.scalar c)]

/-- The right record of the spec's scenario 9: the matching record with
`Program Date` present but null. -/
def c3Row2 (a c : String) : Row :=
  [("Channel Name", Value.scalar a), ("Program Date", Value.null),
    ("Clip Start Time", Value.scalar c)]

/-- The left sheet of the spec's scenario 9 (no `Program Date` column). -/
def c3Df1 (a c : String) : DataFrame :=
  { columns := ["Channel Name", "Clip Start Time"], rows := [c3Row1 a c] }

/-- The right sheet of the spec's scenario 9 (`Program Date` present). -/
def c3Df2 (a c : String) : DataFrame :=
  { columns := ["Channel Name", "Program Date", "Clip Start Time"],
    rows := [c3Row2 a c] }

/-- The character-level shape of a `'|'`-joined key. -/
def joinParts : List (List Char) → List Char
  | [] => []
  | [p] => p
  | p :: q :: rest => p ++ '|' :: joinParts (q :: rest)

/-! ### Properties of Python-dict insertion -/

theorem lookup_cons_of_ne {β : Type} {k' a : String} {b : β} {es : List (String × β)}
    (h : k' ≠ a) : List.lookup k' ((a, b) :: es) = List.lookup k' es := by
  rw [List.lookup_cons, beq_false_of_ne h]

theorem any_fst_beq_iff (d : List (String × Nat)) (k : String) :
    d.any (fun p => p.1 == k) = true ↔ k ∈ d.map Prod.fst := by
  rw [List.any_eq_true, List.mem_map]
  constructor
  · rintro ⟨p, hp, he⟩
    exact ⟨p, hp, by simpa using he⟩
  · rintro ⟨p, hp, he⟩
    exact ⟨p, hp, by simpa using he⟩

theorem insertKey_eq_cases (d : List (String × Nat)) (k : String) (i : Nat) :
    insertKey d k i =
      if k ∈ d.map Prod.fst then d.map (fun p => if p.1 = k then (p.1, i) else p)
      else d ++ [(k, i)] := by
  unfold insertKey
  have hfun : (fun (p : String × Nat) => if p.1 == k then (p.1, i) else p)
      = (fun p => if p.1 = k then (p.1, i) else p) := by
    funext p; by_cases h : p.1 = k <;> simp [h]
  by_cases hmem : k ∈ d.map Prod.fst
  · rw [if_pos ((any_fst_beq_iff d k).2 hmem), if_pos hmem, hfun]
  · rw [if_neg (fun h => hmem ((any_fst_beq_iff d k).1 (by simpa using h))), if_neg hmem]

theorem lookup_map_replace (d : List (String × Nat)) (k k' : String) (i : Nat)
    (hne : k' ≠ k) :
    List.lookup k' (d.map (fun p => if p.1 = k then (p.1, i) else p)) =
      List.lookup k' d := by
  induction d with
  | nil => rfl
  | cons p rest ih =>
    obtain ⟨a, b⟩ := p
    rw [List.map_cons]
    by_cases hak : a = k
    · subst hak
      have h1 : (if ((a, b).1 = a) then ((a, b).1, i) else (a, b)) = (a, i) := by simp
      rw [h1, lookup_cons_of_ne hne, lookup_cons_of_ne hne, ih]
    · have h1 : (if ((a, b).1 = k) then ((a, b).1, i) else (a, b)) = (a, b) := by
        simp [hak]
      rw [h1]
      by_cases hk'a : k' = a
      · subst hk'a; rw [List.lookup_cons_self, List.lookup_cons_self]
      · rw [lookup_cons_of_ne hk'a, lookup_cons_of_ne hk'a, ih]

theorem lookup_map_replace_self (d : List (String × Nat)) (k : String) (i : Nat)
    (hmem : k ∈ d.map Prod.fst) :
    List.lookup k (d.map (fun p => if p.1 = k then (p.1, i) else p)) = some i := by
  induction d with
  | nil => simp at hmem
  | cons p rest ih =>
    obtain ⟨a, b⟩ := p
    rw [List.map_cons]
    by_cases hak : a = k
    · subst hak
      have h1 : (if ((a, b).1 = a) then ((a, b).1, i) else (a, b)) = (a, i) := by simp
      rw [h1, List.lookup_cons_self]
    · have h1 : (if ((a, b).1 = k) then ((a, b).1, i) else (a, b)) = (a, b) := by
        simp [hak]
      have hmem' : k ∈ rest.map Prod.fst := by
        rw [List.map_cons] at hmem
        rcases List.mem_cons.1 hmem with h | h
        · exact absurd h.symm hak
        · exact h
      rw [h1, lookup_cons_of_ne (fun h => hak h.symm), ih hmem']

theorem lookup_insertKey (d : List (String × Nat)) (k k' : String) (i : Nat) :
    List.lookup k' (insertKey d k i) =
      if k' = k then some i else List.lookup k' d := by
  rw [insertKey_eq_cases]
  by_cases hmem : k ∈ d.map Prod.fst
  · rw [if_pos hmem]
    by_cases hk : k' = k
    · subst hk; rw [if_pos rfl]; exact lookup_map_replace_self d k' i hmem
    · rw [if_neg hk]; exact lookup_map_replace d k k' i hk
  · rw [if_neg hmem, List.lookup_append]
    by_cases hk : k' = k
    · subst hk
      have hnone : List.lookup k' d = none := by
        rw [List.lookup_eq_none_iff]
        intro p hp
        simp only [bne_iff_ne, ne_eq]
        intro hkp
        exact hmem (List.mem_map.2 ⟨p, hp, hkp.symm⟩)
      rw [hnone, if_pos rfl, List.lookup_cons_self]
      rfl
    · rw [if_neg hk, lookup_cons_of_ne hk, List.lookup_nil, Option.or_none]

theorem keys_insertKey (d : List (String × Nat)) (k : String) (i : Nat) :
    (insertKey d k i).map Prod.fst =
      if k ∈ d.map Prod.fst then d.map Prod.fst else d.map Prod.fst ++ [k] := by
  rw [insertKey_eq_cases]
  by_cases hmem : k ∈ d.map Prod.fst
  · rw [if_pos hmem, if_pos hmem, List.map_map]
    refine List.map_congr_left (fun p _ => ?_)
    by_cases h : p.1 = k <;> simp [h]
  · rw [if_neg hmem, if_neg hmem]
    simp

theorem nodup_keys_insertKey (d : List (String × Nat)) (k : String) (i : Nat)
    (h : (d.map Prod.fst).Nodup) : ((insertKey d k i).map Prod.fst).Nodup := by
  rw [keys_insertKey]
  by_cases hmem : k ∈ d.map Prod.fst
  · rwa [if_pos hmem]
  · rw [if_neg hmem]
    simp [List.nodup_append, h, hmem]

/-! ### Properties of the record index (`buildDict`) -/

theorem lookup_buildDictGo (ids : List String) (rows : List Row) :
    ∀ (i : Nat) (d : List (String × Nat)) (k : String),
      List.lookup k (buildDictGo ids i rows d) =
        match lastKeyIdx ids i rows k with
        | some j => some j
        | none => List.lookup k d := by
  induction rows with
  | nil => intro i d k; simp [buildDictGo, lastKeyIdx]
  | cons r rest ih =>
    intro i d k
    rw [buildDictGo, ih]
    rcases h : lastKeyIdx ids (i + 1) rest k with _ | j
    · simp only [lastKeyIdx, h, lookup_insertKey]
      by_cases hk : create_composite_key r ids = k
      · rw [if_pos hk, if_pos hk.symm]
      · rw [if_neg hk, if_neg (fun hh => hk hh.symm)]
    · simp [lastKeyIdx, h]

theorem lookup_buildDict (rows : List Row) (ids : List String) (k : String) :
    List.lookup k (buildDict rows ids) = lastKeyIdx ids 0 rows k := by
  rw [buildDict, lookup_buildDictGo]
  rcases lastKeyIdx ids 0 rows k with _ | j <;> simp

theorem nodup_keys_buildDictGo (ids : List String) (rows : List Row) :
    ∀ (i : Nat) (d : List (String × Nat)), (d.map Prod.fst).Nodup →
      ((buildDictGo ids i rows d).map Prod.fst).Nodup := by
  induction rows with
  | nil => intro i d h; simpa [buildDictGo] using h
  | cons r rest ih =>
    intro i d h
    rw [buildDictGo]
    exact ih _ _ (nodup_keys_insertKey _ _ _ h)

theorem nodup_keys_buildDict (rows : List Row) (ids : List String) :
    ((buildDict rows ids).map Prod.fst).Nodup :=
  nodup_keys_buildDictGo ids rows 0 [] (by simp)

theorem lastKeyIdx_eq_none_iff (ids : List String) (rows : List Row) :
    ∀ (i : Nat) (k : String),
      lastKeyIdx ids i rows k = none ↔ ∀ r ∈ rows, create_composite_key r ids ≠ k := by
  induction rows with
  | nil => intro i k; simp [lastKeyIdx]
  | cons r rest ih =>
    intro i k
    rw [lastKeyIdx]
    rcases h : lastKeyIdx ids (i + 1) rest k with _ | j
    · have hrest := (ih (i + 1) k).1 h
      by_cases hk : create_composite_key r ids = k
      · simp only [if_pos hk]
        constructor
        · intro hfalse; exact absurd hfalse (by simp)
        · intro hall; exact absurd hk (hall r (by simp))
      · simp only [if_neg hk]
        constructor
        · intro _ r' hr'
          rcases List.mem_cons.1 hr' with rfl | hr'
          · exact hk
          · exact hrest r' hr'
        · intro _; trivial
    · constructor
      · intro hfalse; exact absurd hfalse (by simp)
      · intro hall
        have hnone : lastKeyIdx ids (i + 1) rest k = none :=
          (ih (i + 1) k).2 (fun r' hr' => hall r' (List.mem_cons_of_mem r hr'))
        rw [hnone] at h; exact absurd h (by simp)

theorem lastKeyIdx_sound (ids : List String) (rows : List Row) :
    ∀ (i : Nat) (k : String) (j : Nat), lastKeyIdx ids i rows k = some j →
      ∃ m, j = i + m ∧ m < rows.length ∧
        create_composite_key (rows.getD m []) ids = k ∧
        ∀ m', m < m' → m' < rows.length →
          create_composite_key (rows.getD m' []) ids ≠ k := by
  induction rows with
  | nil => intro i k j h; exact absurd h (by simp [lastKeyIdx])
  | cons r rest ih =>
    intro i k j h
    rw [lastKeyIdx] at h
    rcases h' : lastKeyIdx ids (i + 1) rest k with _ | j'
    · rw [h'] at h
      by_cases hk : create_composite_key r ids = k
      · rw [if_pos hk] at h
        have hj : i = j := by simpa using h
        refine ⟨0, by omega, by simp, by simpa using hk, ?_⟩
        intro m' hm0 hlen
        obtain ⟨m'', rfl⟩ : ∃ m'', m' = m'' + 1 := ⟨m' - 1, by omega⟩
        have hnone := (lastKeyIdx_eq_none_iff ids rest (i + 1) k).1 h'
        have hmem : rest.getD m'' [] ∈ rest := by
          rw [List.getD_eq_getElem _ _ (by simpa using hlen)]
          exact List.getElem_mem _
        simpa using hnone _ hmem
      · rw [if_neg hk] at h; exact absurd h (by simp)
    · rw [h'] at h
      have hj : j' = j := by simpa using h
      obtain ⟨m, hm, hmlen, hmk, hlater⟩ := ih (i + 1) k j' h'
      refine ⟨m + 1, by omega, by simpa using Nat.succ_lt_succ hmlen, by simpa using hmk, ?_⟩
      intro m' hmm hlen
      obtain ⟨m'', rfl⟩ : ∃ m'', m' = m'' + 1 := ⟨m' - 1, by omega⟩
      have := hlater m'' (by omega) (by simpa using hlen)
      simpa using this

theorem lastKeyIdx_complete (ids : List String) (rows : List Row) :
    ∀ (i : Nat) (k : String) (m : Nat), m < rows.length →
      create_composite_key (rows.getD m []) ids = k →
      (∀ m', m < m' → m' < rows.length →
        create_composite_key (rows.getD m' []) ids ≠ k) →
      lastKeyIdx ids i rows k = some (i + m) := by
  induction rows with
  | nil => intro i k m h; exact absurd h (by simp)
  | cons r rest ih =>
    intro i k m hlen hkey hlater
    rw [lastKeyIdx]
    rcases m with _ | m'
    · have hnone : lastKeyIdx ids (i + 1) rest k = none := by
        rw [lastKeyIdx_eq_none_iff]
        intro r' hr'
        obtain ⟨n, hn, rfl⟩ := List.getElem_of_mem hr'
        have := hlater (n + 1) (by omega) (by simpa using Nat.succ_lt_succ hn)
        rw [List.getD_cons_succ, List.getD_eq_getElem _ _ hn] at this
        exact this
      rw [hnone]
      have hkr : create_composite_key r ids = k := by simpa using hkey
      simp [hkr]
    · have hklen : m' < rest.length := by simpa using hlen
      have hkey' : create_composite_key (rest.getD m' []) ids = k := by simpa using hkey
      have hlater' : ∀ n, m' < n → n < rest.length →
          create_composite_key (rest.getD n []) ids ≠ k := by
        intro n hn hnlen
        have := hlater (n + 1) (by omega) (by simpa using Nat.succ_lt_succ hnlen)
        simpa using this
      rw [ih (i + 1) k m' hklen hkey' hlater']
      show some (i + 1 + m') = some (i + (m' + 1))
      congr 1
      omega

theorem lookup_buildDict_some (rows : List Row) (ids : List String) (k : String) (j : Nat)
    (h : List.lookup k (buildDict rows ids) = some j) :
    j < rows.length ∧ create_composite_key (rows.getD j []) ids = k ∧
      ∀ m, j < m → m < rows.length → create_composite_key (rows.getD m []) ids ≠ k := by
  rw [lookup_buildDict] at h
  obtain ⟨m, hjm, hmlen, hmk, hlater⟩ := lastKeyIdx_sound ids rows 0 k j h
  obtain rfl : j = m := by omega
  exact ⟨hmlen, hmk, hlater⟩

theorem mem_keys_buildDict (rows : List Row) (ids : List String) (k : String) :
    k ∈ (buildDict rows ids).map Prod.fst ↔
      ∃ r ∈ rows, create_composite_key r ids = k := by
  constructor
  · intro hmem
    obtain ⟨p, hp, rfl⟩ := List.mem_map.1 hmem
    by_contra hno
    push_neg at hno
    have hnone : List.lookup p.1 (buildDict rows ids) = none := by
      rw [lookup_buildDict, lastKeyIdx_eq_none_iff]
      exact hno
    have hsome : (List.lookup p.1 (buildDict rows ids)).isSome := by
      rw [List.lookup_isSome_iff]
      exact ⟨p, hp, by simp⟩
    rw [hnone] at hsome
    exact absurd hsome (by simp)
  · rintro ⟨r, hr, hk⟩
    have hne : lastKeyIdx ids 0 rows k ≠ none := by
      simp only [ne_eq, lastKeyIdx_eq_none_iff]
      push_neg
      exact ⟨r, hr, hk⟩
    rcases hj : lastKeyIdx ids 0 rows k with _ | j
    · exact absurd hj hne
    · have hlk : List.lookup k (buildDict rows ids) = some j := by
        rw [lookup_buildDict, hj]
      have hsome : (List.lookup k (buildDict rows ids)).isSome := by
        rw [hlk]; rfl
      obtain ⟨p, hp, hpk⟩ := List.lookup_isSome_iff.1 hsome
      exact List.mem_map.2 ⟨p, hp, (show k = p.1 by simpa using hpk).symm⟩

/-! ### Properties of the key union and the classification loop -/

theorem mem_reconcile_all_keys (d1 d2 : List (String × Nat)) (k : String) :
    k ∈ reconcile_all_keys d1 d2 ↔
      k ∈ d1.map Prod.fst ∨ k ∈ d2.map Prod.fst := by
  simp only [reconcile_all_keys, List.mem_append, List.mem_filter, decide_eq_true_eq]
  constructor
  · rintro (h | ⟨h, _⟩)
    · exact Or.inl h
    · exact Or.inr h
  · rintro (h | h)
    · exact Or.inl h
    · by_cases h1 : k ∈ d1.map Prod.fst
      · exact Or.inl h1
      · exact Or.inr ⟨h, h1⟩

theorem nodup_reconcile_all_keys (d1 d2 : List (String × Nat))
    (h1 : (d1.map Prod.fst).Nodup) (h2 : (d2.map Prod.fst).Nodup) :
    (reconcile_all_keys d1 d2).Nodup := by
  rw [reconcile_all_keys, List.nodup_append]
  refine ⟨h1, h2.filter _, ?_⟩
  intro k hk hk'
  have := (List.mem_filter.1 hk').2
  simp only [decide_eq_true_eq] at this
  exact this hk

theorem filterMap_keys_eq {α : Type} (f : String → Option α) (g : α → String)
    (p : String → Bool)
    (hsome : ∀ k e, f k = some e → g e = k ∧ p k = true)
    (hnone : ∀ k, f k = none → p k = false) :
    ∀ ks : List String, (ks.filterMap f).map g = ks.filter p := by
  intro ks
  induction ks with
  | nil => rfl
  | cons k ks ih =>
    rcases hfk : f k with _ | e
    · rw [List.filterMap_cons_none hfk, List.filter_cons_of_neg (by simp [hnone k hfk]), ih]
    · obtain ⟨hg, hp⟩ := hsome k e hfk
      rw [List.filterMap_cons_some hfk, List.filter_cons_of_pos (by simp [hp]),
        List.map_cons, hg, ih]

theorem identical_entries_keys (rows1 rows2 : List Row) (avail common : List String)
    (d1 d2 : List (String × Nat)) (ks : List String) :
    (identical_entries rows1 rows2 avail common d1 d2 ks).map
      (fun e => e.composite_key) =
      ks.filter (fun k => is_identical_key rows1 rows2 common d1 d2 k) := by
  rw [identical_entries]
  refine filterMap_keys_eq _ _ _ ?_ ?_ ks
  · intro k e he
    rcases h1 : List.lookup k d1 with _ | i1 <;> rcases h2 : List.lookup k d2 with _ | i2 <;>
      simp only [h1, h2] at he
    · exact absurd he (by simp)
    · exact absurd he (by simp)
    · exact absurd he (by simp)
    · by_cases hm :
          (modified_columns_for (rows1.getD i1 []) (rows2.getD i2 []) common).isEmpty = true
      · rw [if_pos hm] at he
        cases he
        refine ⟨rfl, ?_⟩
        simp only [is_identical_key, h1, h2]
        exact hm
      · rw [if_neg hm] at he
        exact absurd he (by simp)
  · intro k he
    rcases h1 : List.lookup k d1 with _ | i1 <;> rcases h2 : List.lookup k d2 with _ | i2 <;>
      simp only [h1, h2] at he
    · simp [is_identical_key, h1, h2]
    · simp [is_identical_key, h1, h2]
    · simp [is_identical_key, h1, h2]
    · by_cases hm :
          (modified_columns_for (rows1.getD i1 []) (rows2.getD i2 []) common).isEmpty = true
      · rw [if_pos hm] at he
        exact absurd he (by simp)
      · simp only [is_identical_key, h1, h2]
        simpa using hm

theorem modified_entries_keys (rows1 rows2 : List Row) (avail common : List String)
    (d1 d2 : List (String × Nat)) (ks : List String) :
    (modified_entries rows1 rows2 avail common d1 d2 ks).map
      (fun e => e.composite_key) =
      ks.filter (fun k => is_modified_key rows1 rows2 common d1 d2 k) := by
  rw [modified_entries]
  refine filterMap_keys_eq _ _ _ ?_ ?_ ks
  · intro k e he
    rcases h1 : List.lookup k d1 with _ | i1 <;> rcases h2 : List.lookup k d2 with _ | i2 <;>
      simp only [h1, h2] at he
    · exact absurd he (by simp)
    · exact absurd he (by simp)
    · exact absurd he (by simp)
    · by_cases hm :
          (modified_columns_for (rows1.getD i1 []) (rows2.getD i2 []) common).isEmpty = true
      · rw [if_pos hm] at he
        exact absurd he (by simp)
      · rw [if_neg hm] at he
        cases he
        refine ⟨rfl, ?_⟩
        simp only [is_modified_key, h1, h2]
        simpa using hm
  · intro k he
    rcases h1 : List.lookup k d1 with _ | i1 <;> rcases h2 : List.lookup k d2 with _ | i2 <;>
      simp only [h1, h2] at he
    · simp [is_modified_key, h1, h2]
    · simp [is_modified_key, h1, h2]
    · simp [is_modified_key, h1, h2]
    · by_cases hm :
          (modified_columns_for (rows1.getD i1 []) (rows2.getD i2 []) common).isEmpty = true
      · simp only [is_modified_key, h1, h2, hm, Bool.not_true]
      · rw [if_neg hm] at he
        exact absurd he (by simp)

theorem only_file1_entries_keys (rows1 : List Row) (avail : List String)
    (d1 d2 : List (String × Nat)) (ks : List String) :
    (only_file1_entries rows1 avail d1 d2 ks).map (fun e => e.composite_key) =
      ks.filter (fun k => is_only_file1_key d1 d2 k) := by
  rw [only_file1_entries]
  refine filterMap_keys_eq _ _ _ ?_ ?_ ks
  · intro k e he
    rcases h1 : List.lookup k d1 with _ | i1 <;> rcases h2 : List.lookup k d2 with _ | i2 <;>
      simp only [h1, h2] at he
    · exact absurd he (by simp)
    · exact absurd he (by simp)
    · cases he
      exact ⟨rfl, by simp [is_only_file1_key, h1, h2]⟩
    · exact absurd he (by simp)
  · intro k he
    rcases h1 : List.lookup k d1 with _ | i1 <;> rcases h2 : List.lookup k d2 with _ | i2 <;>
      simp only [h1, h2] at he
    · simp [is_only_file1_key, h1, h2]
    · simp [is_only_file1_key, h1, h2]
    · exact absurd he (by simp)
    · simp [is_only_file1_key, h1, h2]

theorem only_file2_entries_keys (rows2 : List Row) (avail : List String)
    (d1 d2 : List (String × Nat)) (ks : List String) :
    (only_file2_entries rows2 avail d1 d2 ks).map (fun e => e.composite_key) =
      ks.filter (fun k => is_only_file2_key d1 d2 k) := by
  rw [only_file2_entries]
  refine filterMap_keys_eq _ _ _ ?_ ?_ ks
  · intro k e he
    rcases h1 : List.lookup k d1 with _ | i1 <;> rcases h2 : List.lookup k d2 with _ | i2 <;>
      simp only [h1, h2] at he
    · exact absurd he (by simp)
    · cases he
      exact ⟨rfl, by simp [is_only_file2_key, h1, h2]⟩
    · exact absurd he (by simp)
    · exact absurd he (by simp)
  · intro k he
    rcases h1 : List.lookup k d1 with _ | i1 <;> rcases h2 : List.lookup k d2 with _ | i2 <;>
      simp only [h1, h2] at he
    · simp [is_only_file2_key, h1, h2]
    · exact absurd he (by simp)
    · simp [is_only_file2_key, h1, h2]
    · simp [is_only_file2_key, h1, h2]

theorem mem_keys_iff_lookup_isSome (d : List (String × Nat)) (k : String) :
    k ∈ d.map Prod.fst ↔ (List.lookup k d).isSome := by
  rw [List.lookup_isSome_iff, List.mem_map]
  constructor
  · rintro ⟨p, hp, rfl⟩; exact ⟨p, hp, by simp⟩
  · rintro ⟨p, hp, hk⟩; exact ⟨p, hp, (show k = p.1 by simpa using hk).symm⟩

/-! ### The null-aware column rule -/

theorem values_differ_iff (v1 v2 : Value) :
    values_differ v1 v2 = true ↔ column_changed v1 v2 := by
  cases v1 <;> cases v2 <;>
    simp [values_differ, column_changed, Value.isna, Value.strForm]

theorem values_differ_self (v : Value) : values_differ v v = false := by
  cases v <;> simp [values_differ, Value.isna, Value.strForm]

theorem modified_columns_for_eq_nil_iff (row1 row2 : Row) (common : List String) :
    modified_columns_for row1 row2 common = [] ↔
      ∀ c ∈ common,
        values_differ ((List.lookup c row1).getD Value.null)
          ((List.lookup c row2).getD Value.null) = false := by
  rw [modified_columns_for, List.filterMap_eq_nil_iff]
  constructor
  · intro h c hc
    by_contra hv
    rw [Bool.not_eq_false] at hv
    have hfc := h c hc
    simp [hv] at hfc
  · intro h c hc
    simp [h c hc]

/-! ### Projections of the reconciliation result -/

theorem analyze_identical_rows (df1 df2 : DataFrame) (avail : List String) :
    (analyze_with_identifiers df1 df2 avail).identical_rows =
      identical_entries df1.rows df2.rows avail (common_columns_of df1 df2)
        (buildDict df1.rows avail) (buildDict df2.rows avail)
        (reconcile_all_keys (buildDict df1.rows avail) (buildDict df2.rows avail)) := rfl

theorem analyze_modified_rows (df1 df2 : DataFrame) (avail : List String) :
    (analyze_with_identifiers df1 df2 avail).modified_rows =
      modified_entries df1.rows df2.rows avail (common_columns_of df1 df2)
        (buildDict df1.rows avail) (buildDict df2.rows avail)
        (reconcile_all_keys (buildDict df1.rows avail) (buildDict df2.rows avail)) := rfl

theorem analyze_only_file1 (df1 df2 : DataFrame) (avail : List String) :
    (analyze_with_identifiers df1 df2 avail).rows_only_in_file1 =
      only_file1_entries df1.rows avail
        (buildDict df1.rows avail) (buildDict df2.rows avail)
        (reconcile_all_keys (buildDict df1.rows avail) (buildDict df2.rows avail)) := rfl

theorem analyze_only_file2 (df1 df2 : DataFrame) (avail : List String) :
    (analyze_with_identifiers df1 df2 avail).rows_only_in_file2 =
      only_file2_entries df2.rows avail
        (buildDict df1.rows avail) (buildDict df2.rows avail)
        (reconcile_all_keys (buildDict df1.rows avail) (buildDict df2.rows avail)) := rfl

theorem count_filter_eq (p : String → Bool) (ks : List String) (k : String) :
    List.count k (ks.filter p) = if p k = true then List.count k ks else 0 := by
  by_cases h : p k = true
  · rw [if_pos h, List.count_filter h]
  · rw [if_neg h, List.count_eq_zero]
    intro hk
    exact h ((List.mem_filter.1 hk).2)

/-! ### Claim C1 -/

/-- Claim C1: for every pair of record indices, every composite key in the
union of the left and right key sets appears exactly once across the four
collections identical / modified / only-left / only-right, so the four
collections are exhaustive and pairwise disjoint and no key is dropped or
duplicated. -/
theorem claim_C1 (df1 df2 : DataFrame) (k : String) :
    (k ∈ (buildDict df1.rows (available_identifiers df1 df2)).map Prod.fst ∨
      k ∈ (buildDict df2.rows (available_identifiers df1 df2)).map Prod.fst) ↔
      List.count k
        ((analyze_differences df1 df2).identical_rows.map (fun e => e.composite_key) ++
          (analyze_differences df1 df2).modified_rows.map (fun e => e.composite_key) ++
          (analyze_differences df1 df2).rows_only_in_file1.map (fun e => e.composite_key) ++
          (analyze_differences df1 df2).rows_only_in_file2.map (fun e => e.composite_key)) = 1 := by
  rw [analyze_differences, analyze_identical_rows, analyze_modified_rows,
    analyze_only_file1, analyze_only_file2, identical_entries_keys,
    modified_entries_keys, only_file1_entries_keys, only_file2_entries_keys,
    List.count_append, List.count_append, List.count_append,
    count_filter_eq, count_filter_eq, count_filter_eq, count_filter_eq]
  have hnodup := nodup_reconcile_all_keys
    (buildDict df1.rows (available_identifiers df1 df2))
    (buildDict df2.rows (available_identifiers df1 df2))
    (nodup_keys_buildDict _ _) (nodup_keys_buildDict _ _)
  by_cases hmem : k ∈ reconcile_all_keys
      (buildDict df1.rows (available_identifiers df1 df2))
      (buildDict df2.rows (available_identifiers df1 df2))
  · rw [List.count_eq_one_of_mem hnodup hmem]
    have hor := (mem_reconcile_all_keys _ _ k).1 hmem
    rw [mem_keys_iff_lookup_isSome, mem_keys_iff_lookup_isSome] at hor ⊢
    rcases h1 : List.lookup k (buildDict df1.rows (available_identifiers df1 df2)) with _ | i1 <;>
      rcases h2 : List.lookup k (buildDict df2.rows (available_identifiers df1 df2)) with _ | i2
    · rw [h1, h2] at hor; simp at hor
    · simp [is_identical_key, is_modified_key, is_only_file1_key, is_only_file2_key, h1, h2]
    · simp [is_identical_key, is_modified_key, is_only_file1_key, is_only_file2_key, h1, h2]
    · by_cases hx : modified_columns_for ((df1.rows[i1]?).getD []) ((df2.rows[i2]?).getD [])
          (common_columns_of df1 df2) = [] <;>
        simp [is_identical_key, is_modified_key, is_only_file1_key, is_only_file2_key,
          h1, h2, hx]
  · rw [List.count_eq_zero_of_not_mem hmem]
    have hnor : ¬(k ∈ (buildDict df1.rows (available_identifiers df1 df2)).map Prod.fst ∨
        k ∈ (buildDict df2.rows (available_identifiers df1 df2)).map Prod.fst) :=
      fun h => hmem ((mem_reconcile_all_keys _ _ k).2 h)
    have h1 : List.lookup k (buildDict df1.rows (available_identifiers df1 df2)) = none := by
      rw [← Option.not_isSome_iff_eq_none]
      intro h
      exact hnor (Or.inl ((mem_keys_iff_lookup_isSome _ _).2 h))
    have h2 : List.lookup k (buildDict df2.rows (available_identifiers df1 df2)) = none := by
      rw [← Option.not_isSome_iff_eq_none]
      intro h
      exact hnor (Or.inr ((mem_keys_iff_lookup_isSome _ _).2 h))
    simp [hnor, h1, h2, is_identical_key, is_modified_key, is_only_file1_key,
      is_only_file2_key]
    constructor
    · intro x hx
      exact hnor (Or.inl (List.mem_map.2 ⟨(k, x), hx, rfl⟩))
    · intro x hx
      exact hnor (Or.inr (List.mem_map.2 ⟨(k, x), hx, rfl⟩))

/-! ### Claim C2 -/

/-- Claim C2: a key present in both record indices is classified as modified
iff at least one common column's values differ under the null-aware rule
(both null equal; exactly one null, or differing canonical string forms,
changed), and as identical iff every common column matches under that rule. -/
theorem claim_C2 (df1 df2 : DataFrame) (k : String) (i1 i2 : Nat)
    (h1 : List.lookup k (buildDict df1.rows (available_identifiers df1 df2)) = some i1)
    (h2 : List.lookup k (buildDict df2.rows (available_identifiers df1 df2)) = some i2) :
    (k ∈ (analyze_differences df1 df2).modified_rows.map (fun e => e.composite_key) ↔
      ∃ c ∈ common_columns_of df1 df2,
        column_changed ((List.lookup c (df1.rows.getD i1 [])).getD Value.null)
          ((List.lookup c (df2.rows.getD i2 [])).getD Value.null)) ∧
    (k ∈ (analyze_differences df1 df2).identical_rows.map (fun e => e.composite_key) ↔
      ∀ c ∈ common_columns_of df1 df2,
        ¬ column_changed ((List.lookup c (df1.rows.getD i1 [])).getD Value.null)
          ((List.lookup c (df2.rows.getD i2 [])).getD Value.null)) := by
  have hks : k ∈ reconcile_all_keys (buildDict df1.rows (available_identifiers df1 df2))
      (buildDict df2.rows (available_identifiers df1 df2)) :=
    (mem_reconcile_all_keys _ _ k).2
      (Or.inl ((mem_keys_iff_lookup_isSome _ _).2 (by simp [h1])))
  constructor
  · rw [analyze_differences, analyze_modified_rows, modified_entries_keys, List.mem_filter]
    constructor
    · rintro ⟨-, hp⟩
      simp only [is_modified_key, h1, h2] at hp
      have hne : modified_columns_for (df1.rows.getD i1 []) (df2.rows.getD i2 [])
          (common_columns_of df1 df2) ≠ [] := by
        simpa using hp
      rw [Ne, modified_columns_for_eq_nil_iff] at hne
      push_neg at hne
      obtain ⟨c, hc, hv⟩ := hne
      exact ⟨c, hc, (values_differ_iff _ _).1 (by simpa using hv)⟩
    · rintro ⟨c, hc, hcc⟩
      refine ⟨hks, ?_⟩
      simp only [is_modified_key, h1, h2]
      have hne : modified_columns_for (df1.rows.getD i1 []) (df2.rows.getD i2 [])
          (common_columns_of df1 df2) ≠ [] := by
        rw [Ne, modified_columns_for_eq_nil_iff]
        push_neg
        refine ⟨c, hc, fun hfalse => ?_⟩
        exact absurd ((values_differ_iff _ _).2 hcc) (by simpa using hfalse)
      simpa using hne
  · rw [analyze_differences, analyze_identical_rows, identical_entries_keys, List.mem_filter]
    constructor
    · rintro ⟨-, hp⟩ c hc
      simp only [is_identical_key, h1, h2] at hp
      have hnil : modified_columns_for (df1.rows.getD i1 []) (df2.rows.getD i2 [])
          (common_columns_of df1 df2) = [] := by
        simpa using hp
      have := (modified_columns_for_eq_nil_iff _ _ _).1 hnil c hc
      intro hcc
      rw [(values_differ_iff _ _).2 hcc] at this
      exact absurd this (by simp)
    · intro hall
      refine ⟨hks, ?_⟩
      simp only [is_identical_key, h1, h2]
      have hnil : modified_columns_for (df1.rows.getD i1 []) (df2.rows.getD i2 [])
          (common_columns_of df1 df2) = [] := by
        rw [modified_columns_for_eq_nil_iff]
        intro c hc
        by_contra hv
        rw [Bool.not_eq_false] at hv
        exact hall c hc ((values_differ_iff _ _).1 hv)
      simpa using hnil

/-- Witness for claim C2: the spec's scenario 7 — one matching key whose
`val` column changed from 5 to 6 is classified as modified. -/
theorem claim_C2_witness :
    "NULL|NULL|NULL" ∈ (analyze_differences witnessDf1 witnessDf2).modified_rows.map
      (fun e => e.composite_key) :=
  ((claim_C2 witnessDf1 witnessDf2 "NULL|NULL|NULL" 0 0 (by decide) (by decide)).1).2
    ⟨"val", by decide, by decide⟩

/-! ### Claim C7 -/

theorem modified_columns_for_self (r : Row) (common : List String) :
    modified_columns_for r r common = [] := by
  rw [modified_columns_for_eq_nil_iff]
  intro c _
  exact values_differ_self _

/-- Claim C7: reconciling a dataset against an identical copy of itself
yields no modified and no one-sided records, and as many identical records
as there are distinct composite keys in the dataset. -/
theorem claim_C7 (df : DataFrame) :
    (analyze_differences df df).modified_rows = [] ∧
    (analyze_differences df df).rows_only_in_file1 = [] ∧
    (analyze_differences df df).rows_only_in_file2 = [] ∧
    (analyze_differences df df).identical_rows.length =
      ((df.rows.map (fun r =>
        create_composite_key r (available_identifiers df df))).dedup).length := by
  have hmod : (analyze_differences df df).modified_rows.map (fun e => e.composite_key) = [] := by
    rw [analyze_differences, analyze_modified_rows, modified_entries_keys,
      List.filter_eq_nil_iff]
    intro k _
    rcases h : List.lookup k (buildDict df.rows (available_identifiers df df)) with _ | i
    · simp [is_modified_key, h]
    · simp [is_modified_key, h, modified_columns_for_self]
  have honly1 : (analyze_differences df df).rows_only_in_file1.map
      (fun e => e.composite_key) = [] := by
    rw [analyze_differences, analyze_only_file1, only_file1_entries_keys,
      List.filter_eq_nil_iff]
    intro k _
    rcases h : List.lookup k (buildDict df.rows (available_identifiers df df)) with _ | i <;>
      simp [is_only_file1_key, h]
  have honly2 : (analyze_differences df df).rows_only_in_file2.map
      (fun e => e.composite_key) = [] := by
    rw [analyze_differences, analyze_only_file2, only_file2_entries_keys,
      List.filter_eq_nil_iff]
    intro k _
    rcases h : List.lookup k (buildDict df.rows (available_identifiers df df)) with _ | i <;>
      simp [is_only_file2_key, h]
  refine ⟨by simpa using hmod, by simpa using honly1, by simpa using honly2, ?_⟩
  have hident : (analyze_differences df df).identical_rows.map (fun e => e.composite_key) =
      reconcile_all_keys (buildDict df.rows (available_identifiers df df))
        (buildDict df.rows (available_identifiers df df)) := by
    rw [analyze_differences, analyze_identical_rows, identical_entries_keys,
      List.filter_eq_self]
    intro k hk
    rcases h : List.lookup k (buildDict df.rows (available_identifiers df df)) with _ | i
    · exfalso
      have hor := (mem_reconcile_all_keys _ _ k).1 hk
      have : k ∈ (buildDict df.rows (available_identifiers df df)).map Prod.fst := by
        rcases hor with h' | h' <;> exact h'
      rw [mem_keys_iff_lookup_isSome, h] at this
      exact absurd this (by simp)
    · simp [is_identical_key, h, modified_columns_for_self]
  have hlen1 : (analyze_differences df df).identical_rows.length =
      (reconcile_all_keys (buildDict df.rows (available_identifiers df df))
        (buildDict df.rows (available_identifiers df df))).length := by
    rw [← hident, List.length_map]
  have hks : reconcile_all_keys (buildDict df.rows (available_identifiers df df))
      (buildDict df.rows (available_identifiers df df)) =
      (buildDict df.rows (available_identifiers df df)).map Prod.fst ++ [] := by
    rw [reconcile_all_keys, List.filter_eq_nil_iff.2]
    intro k hk
    simp [hk]
  have hperm : ((df.rows.map (fun r =>
      create_composite_key r (available_identifiers df df))).dedup).Perm
      ((buildDict df.rows (available_identifiers df df)).map Prod.fst) := by
    rw [List.perm_ext_iff_of_nodup (List.nodup_dedup _) (nodup_keys_buildDict _ _)]
    intro k
    rw [List.mem_dedup, mem_keys_buildDict, List.mem_map]
  rw [hlen1, hks, List.append_nil, ← hperm.length_eq]

/-! ### Claim C8 -/

/-- Claim C8: the sheet comparator's structural statistics satisfy the set
identities: unique-to-left is the left minus right column set, unique-to-
right the right minus left, common is the intersection, and the three sets
partition the union of the two column sets. -/
theorem claim_C8 (df1 df2 : DataFrame) (c : String) :
    (c ∈ (compare_sheet_statistics df1 df2).file1_unique_columns ↔
      c ∈ df1.columns ∧ c ∉ df2.columns) ∧
    (c ∈ (compare_sheet_statistics df1 df2).file2_unique_columns ↔
      c ∈ df2.columns ∧ c ∉ df1.columns) ∧
    (c ∈ (compare_sheet_statistics df1 df2).common_columns ↔
      c ∈ df1.columns ∧ c ∈ df2.columns) ∧
    ((c ∈ df1.columns ∨ c ∈ df2.columns) ↔
      List.count c ((compare_sheet_statistics df1 df2).file1_unique_columns ++
        (compare_sheet_statistics df1 df2).common_columns ++
        (compare_sheet_statistics df1 df2).file2_unique_columns) = 1) := by
  have hm1 : c ∈ file1_unique_columns_of df1 df2 ↔ c ∈ df1.columns ∧ c ∉ df2.columns := by
    simp [file1_unique_columns_of]
  have hm2 : c ∈ file2_unique_columns_of df1 df2 ↔ c ∈ df2.columns ∧ c ∉ df1.columns := by
    simp [file2_unique_columns_of]
  have hm3 : c ∈ common_columns_of df1 df2 ↔ c ∈ df1.columns ∧ c ∈ df2.columns := by
    simp [common_columns_of]
  have hn1 : (file1_unique_columns_of df1 df2).Nodup := by
    rw [file1_unique_columns_of]; exact List.nodup_dedup _
  have hn2 : (file2_unique_columns_of df1 df2).Nodup := by
    rw [file2_unique_columns_of]; exact List.nodup_dedup _
  have hn3 : (common_columns_of df1 df2).Nodup := by
    rw [common_columns_of]; exact List.nodup_dedup _
  refine ⟨hm1, hm2, hm3, ?_⟩
  show (c ∈ df1.columns ∨ c ∈ df2.columns) ↔
    List.count c (file1_unique_columns_of df1 df2 ++ common_columns_of df1 df2 ++
      file2_unique_columns_of df1 df2) = 1
  rw [List.count_append, List.count_append]
  by_cases hc1 : c ∈ df1.columns <;> by_cases hc2 : c ∈ df2.columns
  · rw [List.count_eq_zero_of_not_mem (by simp [hm1, hc2]),
      List.count_eq_one_of_mem hn3 (hm3.2 ⟨hc1, hc2⟩),
      List.count_eq_zero_of_not_mem (by simp [hm2, hc1])]
    simp [hc1]
  · rw [List.count_eq_one_of_mem hn1 (hm1.2 ⟨hc1, hc2⟩),
      List.count_eq_zero_of_not_mem (by simp [hm3, hc2]),
      List.count_eq_zero_of_not_mem (by simp [hm2, hc2])]
    simp [hc1]
  · rw [List.count_eq_zero_of_not_mem (by simp [hm1, hc1]),
      List.count_eq_zero_of_not_mem (by simp [hm3, hc1]),
      List.count_eq_one_of_mem hn2 (hm2.2 ⟨hc2, hc1⟩)]
    simp [hc2]
  · rw [List.count_eq_zero_of_not_mem (by simp [hm1, hc1]),
      List.count_eq_zero_of_not_mem (by simp [hm3, hc1]),
      List.count_eq_zero_of_not_mem (by simp [hm2, hc2])]
    simp [hc1, hc2]

/-! ### Claim C9 -/

/-- Claim C9: the aggregate reporter's IDENTICAL verdict holds iff every
compared sheet has zero modified, zero only-left and zero only-right
records; its totals are the per-sheet sums, and a sheet counts as having
differences iff one of its three difference counts is nonzero. -/
theorem claim_C9 (comparison_results : List (String × Differences)) :
    ((generate_summary_report comparison_results).identical = true ↔
      ∀ p ∈ comparison_results, p.2.summary.modified_rows = 0 ∧
        p.2.summary.rows_only_in_file1 = 0 ∧ p.2.summary.rows_only_in_file2 = 0) ∧
    (generate_summary_report comparison_results).total_modifications =
      (comparison_results.map (fun p => p.2.summary.modified_rows)).sum ∧
    (generate_summary_report comparison_results).total_missing_rows_file1 =
      (comparison_results.map (fun p => p.2.summary.rows_only_in_file1)).sum ∧
    (generate_summary_report comparison_results).total_missing_rows_file2 =
      (comparison_results.map (fun p => p.2.summary.rows_only_in_file2)).sum ∧
    (generate_summary_report comparison_results).sheets_with_differences =
      (comparison_results.filter (fun p => decide (p.2.summary.modified_rows ≠ 0 ∨
        p.2.summary.rows_only_in_file1 ≠ 0 ∨
        p.2.summary.rows_only_in_file2 ≠ 0))).length := by
  refine ⟨?_, rfl, rfl, rfl, ?_⟩
  · show decide ((comparison_results.map (fun p => p.2.summary.modified_rows)).sum = 0 ∧
      (comparison_results.map (fun p => p.2.summary.rows_only_in_file1)).sum = 0 ∧
      (comparison_results.map (fun p => p.2.summary.rows_only_in_file2)).sum = 0) = true ↔ _
    rw [decide_eq_true_eq, List.sum_eq_zero_iff, List.sum_eq_zero_iff, List.sum_eq_zero_iff]
    constructor
    · rintro ⟨ha, hb, hc⟩ p hp
      exact ⟨ha _ (List.mem_map.2 ⟨p, hp, rfl⟩), hb _ (List.mem_map.2 ⟨p, hp, rfl⟩),
        hc _ (List.mem_map.2 ⟨p, hp, rfl⟩)⟩
    · intro h
      refine ⟨?_, ?_, ?_⟩
      · intro x hx
        obtain ⟨p, hp, rfl⟩ := List.mem_map.1 hx
        exact (h p hp).1
      · intro x hx
        obtain ⟨p, hp, rfl⟩ := List.mem_map.1 hx
        exact (h p hp).2.1
      · intro x hx
        obtain ⟨p, hp, rfl⟩ := List.mem_map.1 hx
        exact (h p hp).2.2
  · show comparison_results.countP _ = _
    rw [List.countP_eq_length_filter]
    congr 1
    apply List.filter_congr
    intro p _
    rw [decide_eq_decide]
    constructor
    · rintro (h | h | h)
      · exact Or.inl (by omega)
      · exact Or.inr (Or.inl (by omega))
      · exact Or.inr (Or.inr (by omega))
    · rintro (h | h | h)
      · exact Or.inl (by omega)
      · exact Or.inr (Or.inl (by omega))
      · exact Or.inr (Or.inr (by omega))

/-! ### Claim C6 -/

/-- Claim C6: when rows `i < j` collapse to the same composite key and `j` is
the last occurrence of that key, the index maps the key to position `j`, and
the overwritten position `i` appears nowhere in the index.  (`buildDict` is a
total function, so no error or warning can be raised.) -/
theorem claim_C6 (rows : List Row) (ids : List String) (i j : Nat) (k : String)
    (hij : i < j) (hj : j < rows.length)
    (hki : create_composite_key (rows.getD i []) ids = k)
    (hkj : create_composite_key (rows.getD j []) ids = k)
    (hlast : ∀ m, j < m → m < rows.length →
      create_composite_key (rows.getD m []) ids ≠ k) :
    List.lookup k (buildDict rows ids) = some j ∧
      ∀ k', List.lookup k' (buildDict rows ids) ≠ some i := by
  constructor
  · rw [lookup_buildDict]
    have := lastKeyIdx_complete ids rows 0 k j hj hkj hlast
    simpa using this
  · intro k' hk'
    obtain ⟨hilen, hik, hlater⟩ := lookup_buildDict_some rows ids k' i hk'
    have hkk : k' = k := hik.symm.trans hki
    subst hkk
    exact hlater j hij hj hkj

/-- Witness for claim C6: two rows with the same all-null identifier key;
the index keeps position 1 and drops position 0. -/
theorem claim_C6_witness :
    List.lookup "NULL|NULL|NULL"
      (buildDict (witnessDf1.rows ++ witnessDf2.rows) UNIQUE_IDENTIFIERS) = some 1 ∧
      ∀ k', List.lookup k'
        (buildDict (witnessDf1.rows ++ witnessDf2.rows) UNIQUE_IDENTIFIERS) ≠ some 0 :=
  claim_C6 (witnessDf1.rows ++ witnessDf2.rows) UNIQUE_IDENTIFIERS 0 1 "NULL|NULL|NULL"
    (by decide) (by decide) (by decide) (by decide)
    (by intro m h1 h2; exfalso; simp [witnessDf1, witnessDf2] at h2; omega)

/-! ### Claim C10 -/

theorem length_le_one_of_nodup_const {α : Type} (l : List α) (a : α) (hnd : l.Nodup)
    (h : ∀ x ∈ l, x = a) : l.length ≤ 1 := by
  match l with
  | [] => simp
  | [x] => simp
  | x :: y :: t =>
    exfalso
    have hx := h x (by simp)
    have hy := h y (by simp)
    rw [List.nodup_cons] at hnd
    exact hnd.1 (by rw [hx, hy]; simp)

theorem mem_keys_empty_ids (rows : List Row) (k : String)
    (hk : k ∈ (buildDict rows ([] : List String)).map Prod.fst) : k = "" := by
  obtain ⟨r, _, hkx⟩ := (mem_keys_buildDict _ _ _).1 hk
  rw [← hkx]
  rfl

theorem buildDict_empty_ids_length (rows : List Row) :
    (buildDict rows ([] : List String)).length ≤ 1 := by
  have := length_le_one_of_nodup_const
    ((buildDict rows ([] : List String)).map Prod.fst) ""
    (nodup_keys_buildDict _ _) (fun x hx => mem_keys_empty_ids rows x hx)
  simpa using this

/-- Claim C10: when no configured identifier is present in both column sets,
the available-identifier list is empty, every composite key is the empty
string, each index collapses to at most one entry (holding the last row),
and the reconciliation classifies at most one key; nothing is raised since
all the functions involved are total. -/
theorem claim_C10 (df1 df2 : DataFrame)
    (h : ∀ c ∈ UNIQUE_IDENTIFIERS, ¬(c ∈ df1.columns ∧ c ∈ df2.columns)) :
    available_identifiers df1 df2 = [] ∧
    (∀ r : Row, create_composite_key r (available_identifiers df1 df2) = "") ∧
    (buildDict df1.rows (available_identifiers df1 df2)).length ≤ 1 ∧
    (buildDict df2.rows (available_identifiers df1 df2)).length ≤ 1 ∧
    (df1.rows ≠ [] →
      List.lookup "" (buildDict df1.rows (available_identifiers df1 df2)) =
        some (df1.rows.length - 1)) ∧
    (analyze_differences df1 df2).identical_rows.length +
      (analyze_differences df1 df2).modified_rows.length +
      (analyze_differences df1 df2).rows_only_in_file1.length +
      (analyze_differences df1 df2).rows_only_in_file2.length ≤ 1 := by
  have havail : available_identifiers df1 df2 = [] := by
    rw [available_identifiers, List.filter_eq_nil_iff]
    intro c hc
    simp [h c hc]
  rw [havail]
  refine ⟨rfl, fun r => rfl, buildDict_empty_ids_length _, buildDict_empty_ids_length _,
    ?_, ?_⟩
  · intro hne
    rw [lookup_buildDict]
    have hlen : df1.rows.length - 1 < df1.rows.length := by
      cases hrows : df1.rows with
      | nil => exact absurd hrows hne
      | cons r t => simp
    have := lastKeyIdx_complete ([] : List String) df1.rows 0 "" (df1.rows.length - 1)
      hlen rfl (fun m' hm' hm'len => absurd hm'len (by omega))
    simpa using this
  · have hlen1 : (analyze_differences df1 df2).identical_rows.length =
        ((reconcile_all_keys (buildDict df1.rows (available_identifiers df1 df2))
          (buildDict df2.rows (available_identifiers df1 df2))).filter
          (fun k => is_identical_key df1.rows df2.rows (common_columns_of df1 df2)
            (buildDict df1.rows (available_identifiers df1 df2))
            (buildDict df2.rows (available_identifiers df1 df2)) k)).length := by
      rw [← identical_entries_keys, ← analyze_identical_rows, ← analyze_differences,
        List.length_map]
    have hlen2 : (analyze_differences df1 df2).modified_rows.length =
        ((reconcile_all_keys (buildDict df1.rows (available_identifiers df1 df2))
          (buildDict df2.rows (available_identifiers df1 df2))).filter
          (fun k => is_modified_key df1.rows df2.rows (common_columns_of df1 df2)
            (buildDict df1.rows (available_identifiers df1 df2))
            (buildDict df2.rows (available_identifiers df1 df2)) k)).length := by
      rw [← modified_entries_keys, ← analyze_modified_rows, ← analyze_differences,
        List.length_map]
    have hlen3 : (analyze_differences df1 df2).rows_only_in_file1.length =
        ((reconcile_all_keys (buildDict df1.rows (available_identifiers df1 df2))
          (buildDict df2.rows (available_identifiers df1 df2))).filter
          (fun k => is_only_file1_key
            (buildDict df1.rows (available_identifiers df1 df2))
            (buildDict df2.rows (available_identifiers df1 df2)) k)).length := by
      rw [← only_file1_entries_keys df1.rows (available_identifiers df1 df2),
        ← analyze_only_file1, ← analyze_differences, List.length_map]
    have hlen4 : (analyze_differences df1 df2).rows_only_in_file2.length =
        ((reconcile_all_keys (buildDict df1.rows (available_identifiers df1 df2))
          (buildDict df2.rows (available_identifiers df1 df2))).filter
          (fun k => is_only_file2_key
            (buildDict df1.rows (available_identifiers df1 df2))
            (buildDict df2.rows (available_identifiers df1 df2)) k)).length := by
      rw [← only_file2_entries_keys df2.rows (available_identifiers df1 df2),
        ← analyze_only_file2, ← analyze_differences, List.length_map]
    rw [hlen1, hlen2, hlen3, hlen4, havail]
    have hkslen : (reconcile_all_keys (buildDict df1.rows ([] : List String))
        (buildDict df2.rows ([] : List String))).length ≤ 1 := by
      refine length_le_one_of_nodup_const _ ""
        (nodup_reconcile_all_keys _ _ (nodup_keys_buildDict _ _) (nodup_keys_buildDict _ _))
        (fun x hx => ?_)
      rcases (mem_reconcile_all_keys _ _ x).1 hx with hx' | hx'
      · exact mem_keys_empty_ids _ _ hx'
      · exact mem_keys_empty_ids _ _ hx'
    rcases hks : reconcile_all_keys (buildDict df1.rows ([] : List String))
        (buildDict df2.rows ([] : List String)) with _ | ⟨k, t⟩
    · simp
    · rcases t with _ | ⟨k', t'⟩
      · rcases h1 : List.lookup k (buildDict df1.rows ([] : List String)) with _ | i1 <;>
          rcases h2 : List.lookup k (buildDict df2.rows ([] : List String)) with _ | i2
        · simp [is_identical_key, is_modified_key, is_only_file1_key, is_only_file2_key,
            List.filter_cons, h1, h2]
        · simp [is_identical_key, is_modified_key, is_only_file1_key, is_only_file2_key,
            List.filter_cons, h1, h2]
        · simp [is_identical_key, is_modified_key, is_only_file1_key, is_only_file2_key,
            List.filter_cons, h1, h2]
        · by_cases hx : modified_columns_for ((df1.rows[i1]?).getD [])
              ((df2.rows[i2]?).getD []) (common_columns_of df1 df2) = [] <;>
            simp [is_identical_key, is_modified_key, is_only_file1_key, is_only_file2_key,
              List.filter_cons, h1, h2, hx]
      · exfalso
        rw [hks] at hkslen
        simp at hkslen

/-- Witness for claim C10: with no identifier present in both column sets the
available list is empty and the left index maps the empty key to its last
(only) row. -/
theorem claim_C10_witness :
    available_identifiers noIdsDf1 noIdsDf2 = [] ∧
      List.lookup "" (buildDict noIdsDf1.rows (available_identifiers noIdsDf1 noIdsDf2)) =
        some 0 :=
  ⟨(claim_C10 noIdsDf1 noIdsDf2 (by decide)).1,
    (claim_C10 noIdsDf1 noIdsDf2 (by decide)).2.2.2.2.1 (by decide)⟩

/-! ### Claim C3 -/

theorem c3_key1_eq (a c : String) :
    create_composite_key (c3Row1 a c) UNIQUE_IDENTIFIERS =
      a.trim ++ "|" ++ "MISSING" ++ "|" ++ c.trim := rfl

theorem c3_key2_eq (a c : String) :
    create_composite_key (c3Row2 a c) UNIQUE_IDENTIFIERS =
      a.trim ++ "|" ++ "NULL" ++ "|" ++ c.trim := rfl

theorem c3_keys_ne (a c : String) :
    create_composite_key (c3Row1 a c) UNIQUE_IDENTIFIERS ≠
      create_composite_key (c3Row2 a c) UNIQUE_IDENTIFIERS := by
  intro heq
  rw [c3_key1_eq, c3_key2_eq] at heq
  have hlen := congrArg String.length heq
  have h7 : ("MISSING" : String).length = 7 := rfl
  have h4 : ("NULL" : String).length = 4 := rfl
  have h1 : ("|" : String).length = 1 := rfl
  simp only [String.length_append, h7, h4, h1] at hlen
  omega

/-- Claim C3: with `Program Date` absent from the left schema but null in the
right matching record, an identifier list that requires it for the key makes
the two composite keys differ under the two sentinels, so the reconciliation
yields one only-left and one only-right entry instead of a match. -/
theorem claim_C3 (a c : String) :
    create_composite_key (c3Row1 a c) UNIQUE_IDENTIFIERS ≠
      create_composite_key (c3Row2 a c) UNIQUE_IDENTIFIERS ∧
    (analyze_with_identifiers (c3Df1 a c) (c3Df2 a c)
        UNIQUE_IDENTIFIERS).rows_only_in_file1.map (fun e => e.composite_key) =
      [create_composite_key (c3Row1 a c) UNIQUE_IDENTIFIERS] ∧
    (analyze_with_identifiers (c3Df1 a c) (c3Df2 a c)
        UNIQUE_IDENTIFIERS).rows_only_in_file2.map (fun e => e.composite_key) =
      [create_composite_key (c3Row2 a c) UNIQUE_IDENTIFIERS] ∧
    (analyze_with_identifiers (c3Df1 a c) (c3Df2 a c)
        UNIQUE_IDENTIFIERS).identical_rows = [] ∧
    (analyze_with_identifiers (c3Df1 a c) (c3Df2 a c)
        UNIQUE_IDENTIFIERS).modified_rows = [] := by
  have hne := c3_keys_ne a c
  have hd1 : buildDict (c3Df1 a c).rows UNIQUE_IDENTIFIERS =
      [(create_composite_key (c3Row1 a c) UNIQUE_IDENTIFIERS, 0)] := rfl
  have hd2 : buildDict (c3Df2 a c).rows UNIQUE_IDENTIFIERS =
      [(create_composite_key (c3Row2 a c) UNIQUE_IDENTIFIERS, 0)] := rfl
  have hks : reconcile_all_keys
      [(create_composite_key (c3Row1 a c) UNIQUE_IDENTIFIERS, 0)]
      [(create_composite_key (c3Row2 a c) UNIQUE_IDENTIFIERS, 0)] =
      [create_composite_key (c3Row1 a c) UNIQUE_IDENTIFIERS,
        create_composite_key (c3Row2 a c) UNIQUE_IDENTIFIERS] := by
    rw [reconcile_all_keys]
    simp [hne.symm]
  have hb11 : List.lookup (create_composite_key (c3Row1 a c) UNIQUE_IDENTIFIERS)
      [(create_composite_key (c3Row1 a c) UNIQUE_IDENTIFIERS, 0)] = some 0 :=
    List.lookup_cons_self
  have hb12 : List.lookup (create_composite_key (c3Row1 a c) UNIQUE_IDENTIFIERS)
      [(create_composite_key (c3Row2 a c) UNIQUE_IDENTIFIERS, 0)] = none := by
    rw [lookup_cons_of_ne hne]; rfl
  have hb21 : List.lookup (create_composite_key (c3Row2 a c) UNIQUE_IDENTIFIERS)
      [(create_composite_key (c3Row1 a c) UNIQUE_IDENTIFIERS, 0)] = none := by
    rw [lookup_cons_of_ne hne.symm]; rfl
  have hb22 : List.lookup (create_composite_key (c3Row2 a c) UNIQUE_IDENTIFIERS)
      [(create_composite_key (c3Row2 a c) UNIQUE_IDENTIFIERS, 0)] = some 0 :=
    List.lookup_cons_self
  refine ⟨hne, ?_, ?_, ?_, ?_⟩
  · rw [analyze_only_file1, hd1, hd2, hks, only_file1_entries]
    simp [List.filterMap_cons, hb11, hb12, hb21, hb22]
  · rw [analyze_only_file2, hd1, hd2, hks, only_file2_entries]
    simp [List.filterMap_cons, hb11, hb12, hb21, hb22]
  · rw [analyze_identical_rows, hd1, hd2, hks, identical_entries]
    simp [List.filterMap_cons, hb11, hb12, hb21, hb22]
  · rw [analyze_modified_rows, hd1, hd2, hks, modified_entries]
    simp [List.filterMap_cons, hb11, hb12, hb21, hb22]

/-! ### Injectivity of composite keys for separator-free values -/

theorem joinParts_cons_append (p q : List Char) (rest : List (List Char)) :
    joinParts ((p ++ '|' :: q) :: rest) = p ++ '|' :: joinParts (q :: rest) := by
  cases rest with
  | nil => rfl
  | cons r rs =>
    show (p ++ '|' :: q) ++ '|' :: joinParts (r :: rs) =
      p ++ '|' :: joinParts (q :: r :: rs)
    show (p ++ '|' :: q) ++ '|' :: joinParts (r :: rs) =
      p ++ '|' :: (q ++ '|' :: joinParts (r :: rs))
    simp [List.append_assoc]

theorem intercalate_go_data (l : List String) :
    ∀ acc : String, (String.intercalate.go acc "|" l).data =
      joinParts (acc.data :: l.map String.data) := by
  induction l with
  | nil => intro acc; rfl
  | cons x xs ih =>
    intro acc
    rw [show String.intercalate.go acc "|" (x :: xs) =
      String.intercalate.go (acc ++ "|" ++ x) "|" xs from rfl, ih]
    have hdata : (acc ++ "|" ++ x).data = acc.data ++ '|' :: x.data := by
      rw [String.data_append, String.data_append]
      simp [List.append_assoc]
    rw [hdata, List.map_cons, joinParts_cons_append]
    rfl

theorem intercalate_pipe_data (l : List String) :
    (String.intercalate "|" l).data = joinParts (l.map String.data) := by
  cases l with
  | nil => rfl
  | cons a as => exact intercalate_go_data as a

theorem pipe_split_unique (l1 : List Char) :
    ∀ (l2 r1 r2 : List Char), '|' ∉ l1 → '|' ∉ l2 →
      l1 ++ '|' :: r1 = l2 ++ '|' :: r2 → l1 = l2 ∧ r1 = r2 := by
  induction l1 with
  | nil =>
    intro l2 r1 r2 h1 h2 he
    cases l2 with
    | nil => simpa using he
    | cons c t =>
      exfalso
      rw [List.nil_append, List.cons_append, List.cons.injEq] at he
      exact h2 (by rw [← he.1]; simp)
  | cons a t1 ih =>
    intro l2 r1 r2 h1 h2 he
    cases l2 with
    | nil =>
      exfalso
      rw [List.nil_append, List.cons_append, List.cons.injEq] at he
      exact h1 (by rw [he.1]; simp)
    | cons b t2 =>
      rw [List.cons_append, List.cons_append, List.cons.injEq] at he
      obtain ⟨rfl, he'⟩ := he
      obtain ⟨h1', h2'⟩ := ih t2 r1 r2 (fun h => h1 (List.mem_cons_of_mem _ h))
        (fun h => h2 (List.mem_cons_of_mem _ h)) he'
      exact ⟨by rw [h1'], h2'⟩

theorem joinParts_inj (l1 : List (List Char)) :
    ∀ l2 : List (List Char), l1.length = l2.length →
      (∀ p ∈ l1, '|' ∉ p) → (∀ p ∈ l2, '|' ∉ p) →
      joinParts l1 = joinParts l2 → l1 = l2 := by
  induction l1 with
  | nil =>
    intro l2 hlen _ _ _
    cases l2 with
    | nil => rfl
    | cons q t2 => simp at hlen
  | cons p t1 ih =>
    intro l2 hlen hf1 hf2 hj
    cases l2 with
    | nil => simp at hlen
    | cons q t2 =>
      cases t1 with
      | nil =>
        cases t2 with
        | nil =>
          have : p = q := hj
          rw [this]
        | cons y ys => simp at hlen
      | cons x xs =>
        cases t2 with
        | nil => simp at hlen
        | cons y ys =>
          have hj' : p ++ '|' :: joinParts (x :: xs) = q ++ '|' :: joinParts (y :: ys) := hj
          obtain ⟨hpq, hrest⟩ := pipe_split_unique p _ _ _ (hf1 p (by simp))
            (hf2 q (by simp)) hj'
          have ht := ih (y :: ys) (by simpa using hlen)
            (fun r hr => hf1 r (by simp [hr]))
            (fun r hr => hf2 r (by simp [hr])) hrest
          rw [hpq, ht]

theorem create_composite_key_inj (r1 r2 : Row) (ids : List String)
    (hfree : ∀ c ∈ ids, '|' ∉ (normalize_identifier_value r1 c).data ∧
      '|' ∉ (normalize_identifier_value r2 c).data)
    (heq : create_composite_key r1 ids = create_composite_key r2 ids) :
    ∀ c ∈ ids, normalize_identifier_value r1 c = normalize_identifier_value r2 c := by
  have hdata := congrArg String.data heq
  rw [create_composite_key, create_composite_key, intercalate_pipe_data,
    intercalate_pipe_data] at hdata
  have hlen : ((ids.map (normalize_identifier_value r1)).map String.data).length =
      ((ids.map (normalize_identifier_value r2)).map String.data).length := by
    simp
  have hf1 : ∀ p ∈ (ids.map (normalize_identifier_value r1)).map String.data,
      '|' ∉ p := by
    intro p hp
    obtain ⟨s, hs, rfl⟩ := List.mem_map.1 hp
    obtain ⟨c, hc, rfl⟩ := List.mem_map.1 hs
    exact (hfree c hc).1
  have hf2 : ∀ p ∈ (ids.map (normalize_identifier_value r2)).map String.data,
      '|' ∉ p := by
    intro p hp
    obtain ⟨s, hs, rfl⟩ := List.mem_map.1 hp
    obtain ⟨c, hc, rfl⟩ := List.mem_map.1 hs
    exact (hfree c hc).2
  have hmaps := joinParts_inj _ _ hlen hf1 hf2 hdata
  rw [List.map_map, List.map_map] at hmaps
  have hpt := List.map_eq_map_iff.1 hmaps
  intro c hc
  exact String.ext (by simpa using hpt c hc)

/-! ### Claims C4 and C5 -/

unseal Substring.takeWhileAux Substring.takeRightWhileAux in
/-- Counterexample to claim C4 as stated: with the separator `'|'` inside a
value, two records whose normalized identifier values differ (`x|y` vs `x`
on column A) still produce the same composite key `x|y|z`. -/
theorem claim_C4_counterexample :
    create_composite_key
        [("A", Value.scalar "x|y"), ("B", Value.scalar "z")] ["A", "B"] =
      create_composite_key
        [("A", Value.scalar "x"), ("B", Value.scalar "y|z")] ["A", "B"] ∧
    normalize_identifier_value
        [("A", Value.scalar "x|y"), ("B", Value.scalar "z")] "A" ≠
      normalize_identifier_value
        [("A", Value.scalar "x"), ("B", Value.scalar "y|z")] "A" ∧
    "A" ∈ (["A", "B"] : List String) := by
  decide

/-- Claim C4, amended: identical normalized identifier values always give
identical keys; and provided no normalized identifier value of either record
contains the separator `'|'`, records differing in some identifier value give
different keys. -/
theorem claim_C4 (r1 r2 : Row) (ids : List String) :
    ((∀ c ∈ ids, normalize_identifier_value r1 c = normalize_identifier_value r2 c) →
      create_composite_key r1 ids = create_composite_key r2 ids) ∧
    ((∀ c ∈ ids, '|' ∉ (normalize_identifier_value r1 c).data ∧
        '|' ∉ (normalize_identifier_value r2 c).data) →
      (∃ c ∈ ids, normalize_identifier_value r1 c ≠ normalize_identifier_value r2 c) →
      create_composite_key r1 ids ≠ create_composite_key r2 ids) := by
  constructor
  · intro hall
    rw [create_composite_key, create_composite_key]
    exact congrArg _ (List.map_eq_map_iff.2 hall)
  · rintro hfree ⟨c, hc, hne⟩ heq
    exact hne (create_composite_key_inj r1 r2 ids hfree heq c hc)

/-- Witness for claim C4: a null field and a missing field normalize to the
distinct pipe-free values NULL and MISSING, so the keys differ. -/
theorem claim_C4_witness :
    create_composite_key [("A", Value.null)] ["A"] ≠
      create_composite_key ([] : Row) ["A"] :=
  (claim_C4 [("A", Value.null)] ([] : Row) ["A"]).2 (by decide)
    ⟨"A", by decide, by decide⟩

unseal Substring.takeWhileAux Substring.takeRightWhileAux in
/-- Counterexample to claim C5 as stated: with the separator `'|'` inside
values, a record with `F` absent and a record with `F` null can still
produce the same composite key `x|MISSING|NULL|b`. -/
theorem claim_C5_counterexample :
    List.lookup "F" ([("A", Value.scalar "x"), ("B", Value.scalar "NULL|b")] : Row) =
      none ∧
    List.lookup "F" ([("A", Value.scalar "x|MISSING"), ("F", Value.null),
      ("B", Value.scalar "b")] : Row) = some Value.null ∧
    "F" ∈ (["A", "F", "B"] : List String) ∧
    create_composite_key
        [("A", Value.scalar "x"), ("B", Value.scalar "NULL|b")] ["A", "F", "B"] =
      create_composite_key
        [("A", Value.scalar "x|MISSING"), ("F", Value.null), ("B", Value.scalar "b")]
        ["A", "F", "B"] := by
  decide

/-- Claim C5, amended: provided no normalized identifier value of either
record contains the separator `'|'`, a record with identifier field `F`
absent from its schema and a record with `F` present but null produce
different composite keys, because the MISSING and NULL sentinels differ. -/
theorem claim_C5 (r1 r2 : Row) (ids : List String) (F : String) (hF : F ∈ ids)
    (h1 : List.lookup F r1 = none) (h2 : List.lookup F r2 = some Value.null)
    (hfree : ∀ c ∈ ids, '|' ∉ (normalize_identifier_value r1 c).data ∧
      '|' ∉ (normalize_identifier_value r2 c).data) :
    create_composite_key r1 ids ≠ create_composite_key r2 ids := by
  intro heq
  have hval := create_composite_key_inj r1 r2 ids hfree heq F hF
  simp only [normalize_identifier_value, h1, h2] at hval
  exact absurd hval (by decide)

/-- Witness for claim C5: `Program Date` missing versus `Program Date` null
splits the key NULL|MISSING from NULL|NULL. -/
theorem claim_C5_witness :
    create_composite_key [("Channel Name", Value.null)]
        ["Channel Name", "Program Date"] ≠
      create_composite_key [("Channel Name", Value.null), ("Program Date", Value.null)]
        ["Channel Name", "Program Date"] :=
  claim_C5 [("Channel Name", Value.null)]
    [("Channel Name", Value.null), ("Program Date", Value.null)]
    ["Channel Name", "Program Date"] "Program Date"
    (by decide) (by decide) (by decide) (by decide)
